import Mathlib

/-!
Verification development for the vibe-heal remediation engine.

This file gives a shallow embedding, in Lean, of the core algorithms of the
repository: the SonarQube issue model and its derived fixability predicate
(`src/vibe_heal/sonarqube/models.py`), the issue and duplication processors
(`src/vibe_heal/processor/issue_processor.py`,
`src/vibe_heal/deduplication/processor.py`), the git commit protocol of the
VCS adapter (`src/vibe_heal/vcs/git/manager.py`), the per-issue fix loop of
the single-file orchestrators (`src/vibe_heal/orchestrator.py`,
`src/vibe_heal/deduplication/orchestrator.py`), and the branch cleanup loop
(`src/vibe_heal/cleanup/orchestrator.py`).  External collaborators (the AI
agent, the SonarQube HTTP API, the analysis scanner) enter the embedding as
oracle parameters, mirroring the black-box interface the code consumes.

Python conventions are translated explicitly: `x or d` on strings becomes
`pyOr`, truthiness of optional strings becomes `pyTruthy`, `list.sort(key=k,
reverse=True)` (a stable descending sort) becomes the stable insertion sort
`pySortDescBy`, and exceptions become `Except`.
-/

/-! ## Python string helpers -/

/-- Python truthiness of an optional string: `None` and the empty string are
falsy, everything else is truthy. -/
def pyTruthy : Option String → Bool
  | none => false
  | some s => s ≠ ""

/-- Python `x or d` for an optional string `x`: yields `d` when `x` is falsy
(absent or empty), else the string itself. -/
def pyOr (x : Option String) (d : String) : String :=
  match x with
  | none => d
  | some s => if s = "" then d else s

/-- Python `s.upper()` for the ASCII statuses and severities this code
compares (modelled as a per-character uppercase map, which core Lean cannot
evaluate through `String.toUpper`'s positional recursion). -/
def pyUpper (s : String) : String :=
  String.mk (s.data.map Char.toUpper)

/-! ## SonarQube issue model (`sonarqube/models.py`) -/

/-- One entry of the `impacts` array of the new SonarQube API: a dict whose
optional `severity` key we record (`none` models a dict without the key). -/
structure Impact where
  severity : Option String
deriving DecidableEq, Repr

/-- A SonarQube issue as the pydantic model stores it: the fields consumed by
the remediation core.  `line` is the optional 1-based line number. -/
structure SonarQubeIssue where
  key : String
  rule : String
  message : String
  line : Option Int
  severity : Option String
  status : Option String
deriving DecidableEq, Repr

/-- A raw issue before the `model_validator` runs: carries the new-API fields
`issueStatus` and `impacts` next to the old-API `severity` and `status`. -/
structure RawSonarQubeIssue where
  key : String
  rule : String
  message : String
  line : Option Int
  issueStatus : Option String
  impacts : List Impact
  severity : Option String
  status : Option String
deriving DecidableEq, Repr

/-- The `extract_fields_from_new_api` model validator: severity falls back to
the first impact's `severity` entry (default `INFO`), status falls back to
`issueStatus`, and finally `INFO` / `OPEN` defaults are applied. -/
def extract_fields_from_new_api (r : RawSonarQubeIssue) : SonarQubeIssue :=
  let sev1 : Option String :=
    if ¬pyTruthy r.severity ∧ r.impacts ≠ [] then
      match r.impacts with
      | [] => r.severity
      | i :: _ => some (i.severity.getD "INFO")
    else r.severity
  let st1 : Option String :=
    if ¬pyTruthy r.status ∧ pyTruthy r.issueStatus then r.issueStatus else r.status
  let sev2 : Option String := if ¬pyTruthy sev1 then some "INFO" else sev1
  let st2 : Option String := if ¬pyTruthy st1 then some "OPEN" else st1
  { key := r.key, rule := r.rule, message := r.message, line := r.line
    severity := sev2, status := st2 }

/-- The terminal lifecycle statuses listed in `SonarQubeIssue.is_fixable`. -/
def terminalStatuses : List String :=
  ["RESOLVED", "CLOSED", "WONTFIX", "FALSE-POSITIVE", "ACCEPTED"]

/-- `SonarQubeIssue.is_fixable`: false without a line number, false when the
upper-cased status is terminal. -/
def SonarQubeIssue.is_fixable (i : SonarQubeIssue) : Bool :=
  match i.line with
  | none => false
  | some _ => ¬(pyUpper (i.status.getD "") ∈ terminalStatuses)

/-! ## Issue processor (`processor/issue_processor.py`) -/

/-- `ProcessingResult` of the issue processor. -/
structure ProcessingResult where
  total_issues : Nat
  fixable_issues : Nat
  skipped_issues : Nat
  issues_to_fix : List SonarQubeIssue
deriving DecidableEq, Repr

/-- The `_severity_rank` dictionary (with `.get(_, 0)` for unknown keys). -/
def severityRank (s : String) : Nat :=
  if s = "BLOCKER" then 5
  else if s = "CRITICAL" then 4
  else if s = "MAJOR" then 3
  else if s = "MINOR" then 2
  else if s = "INFO" then 1
  else 0

/-- The sort key `lambda x: x.line or 0` (a missing line and line 0 both map
to 0). -/
def lineKey (i : SonarQubeIssue) : Int :=
  i.line.getD 0

/-- Stable insertion into a descending-sorted list: the inserted element
(earlier in the input) goes before every element whose key is not greater,
mirroring the tie behaviour of Python's stable sort with `reverse=True`. -/
def insertDescBy (key : α → Int) (a : α) : List α → List α
  | [] => [a]
  | b :: l => if key a < key b then b :: insertDescBy key a l else a :: b :: l

/-- Stable descending sort by an integer key: the model of Python's
`list.sort(key=key, reverse=True)` / `sorted(l, key=key, reverse=True)`. -/
def pySortDescBy (key : α → Int) : List α → List α
  | [] => []
  | a :: l => insertDescBy key a (pySortDescBy key l)

/-- `IssueProcessor._sort_by_line_descending`: split off issues without a
line, stable-sort the rest by descending line, and append the lineless ones. -/
def sortByLineDescending (issues : List SonarQubeIssue) : List SonarQubeIssue :=
  let withLine := issues.filter (fun i => i.line ≠ none)
  let withoutLine := issues.filter (fun i => i.line = none)
  pySortDescBy lineKey withLine ++ withoutLine

/-- The step-1 and step-2 filter pipeline of `IssueProcessor.process`:
fixability, then the optional minimum-severity threshold. -/
def fixableAfterFilters (minSeverity : Option String) (issues : List SonarQubeIssue) :
    List SonarQubeIssue :=
  let fixable := issues.filter (fun i => i.is_fixable)
  if pyTruthy minSeverity then
    let minRank := severityRank (pyUpper (pyOr minSeverity ""))
    fixable.filter (fun i => severityRank (pyOr i.severity "INFO") ≥ minRank)
  else fixable

/-- `IssueProcessor.process`: filter by fixability and severity, sort by
descending line, apply the cap (only when it is a positive int), and report
the counters. -/
def IssueProcessor.process (minSeverity : Option String) (maxIssues : Option Int)
    (issues : List SonarQubeIssue) : ProcessingResult :=
  let total := issues.length
  let fixable := fixableAfterFilters minSeverity issues
  let sortedIssues := sortByLineDescending fixable
  let finalIssues :=
    match maxIssues with
    | some n => if 0 < n then sortedIssues.take n.toNat else sortedIssues
    | none => sortedIssues
  { total_issues := total
    fixable_issues := fixable.length
    skipped_issues := total - finalIssues.length
    issues_to_fix := finalIssues }

/-! ## Duplication model and processor (`deduplication/models.py`,
`deduplication/processor.py`) -/

/-- `DuplicationBlock`: one occurrence of a duplicated region (`from_line`,
`size`, and the `_ref` file reference). -/
structure DuplicationBlock where
  from_line : Int
  size : Int
  ref : String
deriving DecidableEq, Repr

/-- `DuplicationFileInfo`: the component key of a file in the `files` map. -/
structure DuplicationFileInfo where
  key : String
  name : String
deriving DecidableEq, Repr

/-- `DuplicationGroup`: a set of mutually duplicated blocks. -/
structure DuplicationGroup where
  blocks : List DuplicationBlock
deriving DecidableEq, Repr

/-- `DuplicationGroup.get_target_block`: the first block whose `_ref` equals
the target file reference, if any. -/
def DuplicationGroup.get_target_block (g : DuplicationGroup) (targetRef : String) :
    Option DuplicationBlock :=
  g.blocks.find? (fun b => b.ref = targetRef)

/-- `DuplicationsResponse`: the duplication groups plus the `files` map,
modelled as an insertion-ordered association list (Python dict iteration). -/
structure DuplicationsResponse where
  duplications : List DuplicationGroup
  files : List (String × DuplicationFileInfo)
deriving DecidableEq, Repr

/-- `DuplicationsResponse.get_target_file_ref`: the first reference whose file
info carries the requested component key. -/
def DuplicationsResponse.get_target_file_ref (r : DuplicationsResponse)
    (targetComponentKey : String) : Option String :=
  (r.files.find? (fun p => p.2.key = targetComponentKey)).map (·.1)

/-- `DuplicationProcessingResult` of the duplication processor. -/
structure DuplicationProcessingResult where
  total_groups : Nat
  processable_groups : Nat
  skipped_groups : Nat
  groups_to_fix : List DuplicationGroup
deriving DecidableEq, Repr

/-- The sort key of `DuplicationProcessor._sort_by_line_descending`: the
target block's starting line, or 0 when the group has no target block. -/
def dupStartLine (targetRef : String) (g : DuplicationGroup) : Int :=
  match g.get_target_block targetRef with
  | some b => b.from_line
  | none => 0

/-- `DuplicationProcessor.process`: keep the groups containing a block of the
target file, stable-sort them by descending starting line, and apply the cap
(only when it is a positive int). -/
def DuplicationProcessor.process (maxDuplications : Option Int)
    (response : DuplicationsResponse) (targetComponentKey : String) :
    DuplicationProcessingResult :=
  let total := response.duplications.length
  match response.get_target_file_ref targetComponentKey with
  | none =>
      { total_groups := total, processable_groups := 0
        skipped_groups := total, groups_to_fix := [] }
  | some targetRef =>
      let targetGroups :=
        response.duplications.filter (fun g => (g.get_target_block targetRef).isSome)
      let sortedGroups := pySortDescBy (dupStartLine targetRef) targetGroups
      let finalGroups :=
        match maxDuplications with
        | some n => if 0 < n then sortedGroups.take n.toNat else sortedGroups
        | none => sortedGroups
      { total_groups := total
        processable_groups := targetGroups.length
        skipped_groups := total - finalGroups.length
        groups_to_fix := finalGroups }

/-! ## Git manager (`vcs/git/manager.py`)

The repository state is modelled by three trees (HEAD, index, working tree),
each a finite map from path to blob content, plus a HEAD commit identifier
and a counter generating fresh commit ids.  `repo.index.diff(None)` compares
the index against the working tree, `repo.index.diff("HEAD")` compares the
index against the HEAD tree (empty diff = equal maps), `repo.index.add`
stages the current working-tree content of each named path (an absent path
stages its removal), and `repo.index.commit` sets the HEAD tree to the index
and moves HEAD to a fresh commit id.  Internal git failures (I/O errors) are
outside the model; `list(set(...))` of the Python helpers is modelled with a
`Finset`. -/

/-- A git tree: a finite map from path to blob content. -/
abbrev GitTree := Finmap (fun _ : String => String)

/-- Component-wise decidable equality for `Except`, used to evaluate the
commit protocol on concrete repository states. -/
instance instDecidableEqExcept {e a : Type} [DecidableEq e] [DecidableEq a] :
    DecidableEq (Except e a)
  | .error x, .error y =>
    if h : x = y then .isTrue (h ▸ rfl) else .isFalse (fun c => by cases c; exact h rfl)
  | .error _, .ok _ => .isFalse (fun c => by cases c)
  | .ok _, .error _ => .isFalse (fun c => by cases c)
  | .ok x, .ok y =>
    if h : x = y then .isTrue (h ▸ rfl) else .isFalse (fun c => by cases c; exact h rfl)

/-- The byte-wise order on paths used to read a set of detected paths off as
a canonical list (`list(set(...))` in Python returns the elements in an
arbitrary order, and every consumer is order-insensitive). -/
instance pathOrderTotal : IsTotal String (fun a b => a.data ≤ b.data) :=
  ⟨fun a b => le_total a.data b.data⟩

instance pathOrderTrans : IsTrans String (fun a b => a.data ≤ b.data) :=
  ⟨fun _ _ _ h1 h2 => le_trans h1 h2⟩

instance pathOrderAntisymm : IsAntisymm String (fun a b => a.data ≤ b.data) :=
  ⟨fun a b h1 h2 => by
    cases a
    cases b
    exact congrArg String.mk (le_antisymm h1 h2)⟩

/-- Read a finite set of paths off as a sorted list. -/
def sortedListOfFinset (s : Finset String) : List String :=
  Quotient.liftOn s.val (List.insertionSort (fun a b => a.data ≤ b.data))
    (fun _ _ h => List.eq_of_perm_of_sorted
      ((List.perm_insertionSort _ _).trans (h.trans (List.perm_insertionSort _ _).symm))
      (List.sorted_insertionSort _ _) (List.sorted_insertionSort _ _))

/-- The modelled state of a git repository. -/
structure GitState where
  head : GitTree
  index : GitTree
  worktree : GitTree
  headCommit : Nat
  nextSha : Nat
deriving DecidableEq

/-- Paths reported by `repo.index.diff(None)`: tracked paths whose
working-tree content differs from the index. -/
def changedFiles (s : GitState) : Finset String :=
  s.index.keys.filter (fun k => s.worktree.lookup k ≠ s.index.lookup k)

/-- Paths reported by `repo.index.diff("HEAD")`: paths staged differently
from HEAD. -/
def stagedFiles (s : GitState) : Finset String :=
  (s.index.keys ∪ s.head.keys).filter (fun k => s.index.lookup k ≠ s.head.lookup k)

/-- `GitManager.get_modified_or_staged_files` (treated as a set: the Python
code returns `list(set(changed + staged))`). -/
def modifiedOrStagedFiles (s : GitState) : Finset String :=
  changedFiles s ∪ stagedFiles s

/-- `GitManager.get_all_modified_files` delegates to
`get_modified_or_staged_files`; the auto-detect callers consume the result as
a list. -/
def getAllModifiedFiles (s : GitState) : List String :=
  sortedListOfFinset (modifiedOrStagedFiles s)

/-- `repo.untracked_files`: working-tree paths absent from the index. -/
def untrackedFiles (s : GitState) : Finset String :=
  s.worktree.keys \ s.index.keys

/-- `repo.index.add(files)`: stage the current working-tree content of each
listed path into the index (an absent path is staged as removed). -/
def stageFiles (wt idx : GitTree) (files : List String) : GitTree :=
  files.foldl
    (fun acc f =>
      match wt.lookup f with
      | some c => acc.insert f c
      | none => acc.erase f)
    idx

/-- `GitManager._stage_and_commit`: stage the files (when any), return `none`
when the staged index does not differ from HEAD, otherwise commit.  (The
commit message does not influence the repository trees and is not
modelled.) -/
def stageAndCommit (s : GitState) (files : List String) : Option Nat × GitState :=
  let s1 := if files = [] then s else { s with index := stageFiles s.worktree s.index files }
  if s1.index = s1.head then (none, s1)
  else
    (some s1.nextSha,
      { s1 with head := s1.index, headCommit := s1.nextSha, nextSha := s1.nextSha + 1 })

/-- `GitManager.commit_fix`: an explicit empty file list is an error;
`files = none` auto-detects the modified-or-staged files and returns `none`
without committing when nothing is detected and the index matches HEAD;
otherwise stage-and-commit. -/
def commit_fix (s : GitState) (files : Option (List String)) :
    Except String (Option Nat × GitState) :=
  match files with
  | some [] => .error "No files to commit"
  | _ =>
    let autoDetect := files.isNone
    let files1 :=
      match files with
      | none => getAllModifiedFiles s
      | some fs => fs
    if autoDetect ∧ files1 = [] ∧ s.index = s.head then .ok (none, s)
    else .ok (stageAndCommit s files1)

/-- `GitManager.create_commit`: `files = none` auto-detects the
modified-or-staged files (plus the untracked ones when requested); an empty
resulting list — explicit or auto-detected — is an error; otherwise
stage-and-commit. -/
def create_commit (s : GitState) (files : Option (List String))
    (includeUntracked : Bool) : Except String (Option Nat × GitState) :=
  let files1 :=
    match files with
    | none =>
      getAllModifiedFiles s
        ++ (if includeUntracked then sortedListOfFinset (untrackedFiles s) else [])
    | some fs => fs
  if files1 = [] then .error "No files to commit"
  else .ok (stageAndCommit s files1)

/-! ## Fix results and summaries (`ai_tools/models.py`, `models.py`) -/

/-- `FixResult` returned by the AI agent for one fix attempt. -/
structure FixResult where
  success : Bool
  errorMessage : Option String
  filesModified : List String
deriving DecidableEq, Repr

/-- `FixSummary`.  The `commits` field is annotated `list[str]` in the
Python source, but `VibeHealOrchestrator._process_issues` appends the raw
return value of `commit_fix` (which may be `None`), so the runtime content is
a list of optional identifiers; the embedding records that runtime truth. -/
structure FixSummary where
  total_issues : Nat
  fixed : Nat
  failed : Nat
  skipped : Nat
  commits : List (Option String)
deriving DecidableEq, Repr

/-- `FixSummary.has_failures`. -/
def FixSummary.has_failures (s : FixSummary) : Bool :=
  s.failed > 0

/-- The empty summary `FixSummary(total_issues=0)`. -/
def FixSummary.empty : FixSummary :=
  { total_issues := 0, fixed := 0, failed := 0, skipped := 0, commits := [] }

/-! ## Single-file issue fix loop (`orchestrator.py`,
`VibeHealOrchestrator._process_issues`)

The AI agent (`ai_tool.fix_issue`) and the git manager's `commit_fix` enter
as oracles: `fix` gives the agent's result for an issue, and `commit` gives
the outcome of `commit_fix(issue, files_modified, tool)` — a commit id,
`none` when there was nothing to commit, or a raised exception. -/

/-- One step of `_process_issues`: update the running summary for one issue.
On agent success in normal mode the code appends the returned sha and
increments `fixed` without inspecting whether the sha is `None`. -/
def processIssuesStep (commit : SonarQubeIssue → List String → Except String (Option String))
    (dryRun : Bool) (summary : FixSummary) (issue : SonarQubeIssue) (fr : FixResult) :
    FixSummary :=
  if fr.success then
    if ¬dryRun then
      match commit issue fr.filesModified with
      | .ok sha => { summary with commits := summary.commits ++ [sha], fixed := summary.fixed + 1 }
      | .error _ => { summary with failed := summary.failed + 1 }
    else { summary with fixed := summary.fixed + 1 }
  else { summary with failed := summary.failed + 1 }

/-- `VibeHealOrchestrator._process_issues`: fold the per-issue step over the
worklist, starting from `FixSummary(total_issues=0)`. -/
def processIssues (fix : SonarQubeIssue → FixResult)
    (commit : SonarQubeIssue → List String → Except String (Option String))
    (issues : List SonarQubeIssue) (dryRun : Bool) : FixSummary :=
  issues.foldl (fun s i => processIssuesStep commit dryRun s i (fix i)) FixSummary.empty

/-! ## Deduplication fix-result handler (`deduplication/orchestrator.py`,
`DeduplicationOrchestrator._handle_fix_result`)

The `create_commit(msg, None, include_untracked=True)` call enters as an
oracle outcome. -/

/-- `DeduplicationOrchestrator._handle_fix_result`: failed when the target
block is missing or the agent failed; on success in normal mode, a returned
sha increments `fixed` and is recorded, a `None` return increments `skipped`,
and a raised commit exception increments `failed`. -/
def handleFixResult (fr : FixResult) (group : DuplicationGroup) (targetRef : String)
    (dryRun : Bool) (commitOutcome : Except String (Option String))
    (summary : FixSummary) : FixSummary :=
  match group.get_target_block targetRef with
  | none => { summary with failed := summary.failed + 1 }
  | some _ =>
    if fr.success then
      if ¬dryRun then
        match commitOutcome with
        | .ok (some sha) =>
            { summary with commits := summary.commits ++ [some sha], fixed := summary.fixed + 1 }
        | .ok none => { summary with skipped := summary.skipped + 1 }
        | .error _ => { summary with failed := summary.failed + 1 }
      else { summary with fixed := summary.fixed + 1 }
    else { summary with failed := summary.failed + 1 }

/-! ## Branch cleanup orchestrator (`cleanup/orchestrator.py`)

External collaborators enter as oracle fields of `CleanupEnv`, indexed by the
iteration number where the call site sits inside the loop: the branch
analyzer (`validate` + `get_modified_files`, an exception folded into
`Except`), glob matching (`Path.match`), temporary-project creation, the
analysis runner, `get_issues_for_file` during the check phase (where only
`ComponentNotFoundError` is tolerated), the re-fetch and the nested
`fix_file` call during the fix phase, and project deletion.  The
mutate-then-restore project-key swapping does not affect control flow and is
not modelled. -/

/-- `AnalysisResult` of the analysis runner (the fields the loop reads). -/
structure AnalysisResult where
  success : Bool
  errorMessage : Option String
deriving DecidableEq, Repr

/-- Metadata of the ephemeral (temporary) SonarQube project. -/
structure TempProjectMetadata where
  projectKey : String
  projectName : String
deriving DecidableEq, Repr

/-- Outcome of `get_issues_for_file` during the check phase: an issue list, a
`ComponentNotFoundError` (tolerated as zero findings), or another raised
exception. -/
inductive FetchOutcome where
  | issues (is : List SonarQubeIssue)
  | componentNotFound
  | otherError (e : String)
deriving DecidableEq, Repr

/-- `FileCleanupResult` for one modified file. -/
structure FileCleanupResult where
  filePath : String
  issuesFixed : Nat
  success : Bool
  errorMessage : Option String
deriving DecidableEq, Repr

/-- `CleanupResult` of a branch run.  `filesProcessed` keeps the dict's
insertion order (the modified-files order). -/
structure CleanupResult where
  success : Bool
  filesProcessed : List FileCleanupResult
  tempProject : Option TempProjectMetadata
  analysisResult : Option AnalysisResult
  totalIssuesFixed : Nat
  errorMessage : Option String
deriving DecidableEq, Repr

/-- The environment of one `cleanup_branch` run: every external call the run
can make, as a deterministic oracle. -/
structure CleanupEnv where
  maxIterations : Nat
  modifiedFilesResult : Except String (List String)
  patterns : Option (List String)
  globMatch : String → String → Bool
  createProject : Except String TempProjectMetadata
  runAnalysis : Nat → AnalysisResult
  fetchIssues : Nat → String → FetchOutcome
  refetchIssues : Nat → String → Except String (List SonarQubeIssue)
  fixFile : Nat → String → Except String FixSummary
  deleteProject : Except String Unit

/-- `CleanupOrchestrator._filter_files`: keep the files matching at least
one pattern, preserving order. -/
def filterByPatterns (globMatch : String → String → Bool) (patterns : List String)
    (files : List String) : List String :=
  files.filter (fun f => patterns.any (fun p => globMatch f p))

/-- `CleanupOrchestrator._validate_and_filter_files` after the (oracle)
branch analysis succeeded. -/
def validateAndFilterFiles (env : CleanupEnv) (files : List String) : List String :=
  if files = [] then []
  else
    match env.patterns with
    | none => files
    | some ps => filterByPatterns env.globMatch ps files

/-- The check-phase walk of `_check_files_for_issues`: accumulate the total
fixable count and the files with at least one fixable issue; a
`ComponentNotFoundError` skips the file, any other exception propagates. -/
def checkFilesGo (env : CleanupEnv) (iter : Nat) :
    List String → Nat → List String → Except String (Nat × List String)
  | [], total, acc => .ok (total, acc)
  | f :: rest, total, acc =>
    match env.fetchIssues iter f with
    | .issues is =>
      let fixableCount := (is.filter (fun i => i.is_fixable)).length
      if fixableCount > 0 then checkFilesGo env iter rest (total + fixableCount) (acc ++ [f])
      else checkFilesGo env iter rest total acc
    | .componentNotFound => checkFilesGo env iter rest total acc
    | .otherError e => .error e

/-- `CleanupOrchestrator._check_files_for_issues`. -/
def checkFilesForIssues (env : CleanupEnv) (iter : Nat) (files : List String) :
    Except String (Nat × List String) :=
  checkFilesGo env iter files 0 []

/-- Update the `file_results_map` entry of one file after a nested `fix_file`
call: add the fixed count, and the per-file success flag drops (with an
iteration-stamped message) exactly when the summary has failures. -/
def updateTally (iter : Nat) (f : String) (fs : FixSummary)
    (tallies : List FileCleanupResult) : List FileCleanupResult :=
  tallies.map (fun r =>
    if r.filePath = f then
      { filePath := r.filePath
        issuesFixed := r.issuesFixed + fs.fixed
        success := r.success && !fs.has_failures
        errorMessage :=
          if fs.has_failures then some ("Fixes failed at iteration " ++ toString (iter + 1))
          else none }
    else r)

/-- The fix-phase walk of `_fix_files_with_issues`: re-fetch the file's
issues (any exception propagates), run the nested single-file `fix_file`
flow, and fold its summary into the per-file tally. -/
def fixFilesGo (env : CleanupEnv) (iter : Nat) :
    List String → List FileCleanupResult → Except String (List FileCleanupResult)
  | [], tallies => .ok tallies
  | f :: rest, tallies =>
    match env.refetchIssues iter f with
    | .error e => .error e
    | .ok _ =>
      match env.fixFile iter f with
      | .error e => .error e
      | .ok fs => fixFilesGo env iter rest (updateTally iter f fs tallies)

/-- Outcome of the iteration loop of `cleanup_branch`; each constructor also
carries the number of loop iterations that started (analysis runs). -/
inductive LoopOut where
  | finished (brokeEarly : Bool) (brokeAt : Nat) (tallies : List FileCleanupResult)
      (last : Option AnalysisResult) (runs : Nat)
  | analysisFailed (iter : Nat) (result : AnalysisResult)
      (tallies : List FileCleanupResult) (runs : Nat)
  | raised (e : String) (runs : Nat)
deriving DecidableEq, Repr

/-- The `for iteration in range(max_iterations)` loop of `cleanup_branch`:
run the analysis (failure returns immediately), count the fixable issues
(zero breaks the loop), fix the files with issues (an exception propagates to
the orchestrator's handler), and recurse on the remaining budget. -/
def cleanupLoop (env : CleanupEnv) (files : List String) :
    Nat → Nat → List FileCleanupResult → Option AnalysisResult → LoopOut
  | 0, iter, tallies, last => .finished false iter tallies last 0
  | fuel + 1, iter, tallies, _ =>
    let a := env.runAnalysis iter
    if ¬a.success then .analysisFailed iter a tallies 1
    else
      match checkFilesForIssues env iter files with
      | .error e => .raised e 1
      | .ok (totalFixable, filesWithIssues) =>
        if totalFixable = 0 then .finished true iter tallies (some a) 1
        else
          match fixFilesGo env iter filesWithIssues tallies with
          | .error e => .raised e 1
          | .ok tallies1 =>
            match cleanupLoop env files fuel (iter + 1) tallies1 (some a) with
            | .finished b i t l r => .finished b i t l (r + 1)
            | .analysisFailed i a t r => .analysisFailed i a t (r + 1)
            | .raised e r => .raised e (r + 1)

/-- Sum of the per-file fixed counters (`total_issues_fixed`). -/
def sumIssuesFixed (tallies : List FileCleanupResult) : Nat :=
  (tallies.map (fun r => r.issuesFixed)).sum

/-- Render an optional exception message the way a Python f-string renders
the attribute (`None` when absent). -/
def optMsg : Option String → String
  | none => "None"
  | some m => m

/-- The failure result built by the `except` handler of `cleanup_branch`
(note: its `files_processed` is the outer variable, still empty when the
exception escaped the loop). -/
def cleanupFailure (e : String) (tp : Option TempProjectMetadata) : CleanupResult :=
  { success := false, filesProcessed := [], tempProject := tp, analysisResult := none
    totalIssuesFixed := 0, errorMessage := some ("Cleanup failed: " ++ e) }

/-- `CleanupOrchestrator.cleanup_branch`.  Returns the `CleanupResult`, the
number of `delete_project` invocations performed by the `finally` block, and
the warnings it emitted (a failing deletion is swallowed into a warning). -/
def cleanup_branch (env : CleanupEnv) : CleanupResult × Nat × List String :=
  let deleteWarnings : List String :=
    match env.deleteProject with
    | .ok _ => []
    | .error e => ["Failed to delete temporary project: " ++ e]
  match env.modifiedFilesResult with
  | .error e => (cleanupFailure e none, 0, [])
  | .ok files0 =>
    let files := validateAndFilterFiles env files0
    if files = [] then
      ({ success := true, filesProcessed := [], tempProject := none, analysisResult := none
         totalIssuesFixed := 0, errorMessage := none }, 0, [])
    else
      match env.createProject with
      | .error e => (cleanupFailure e none, 0, [])
      | .ok tp =>
        let tallies0 : List FileCleanupResult :=
          files.map (fun f =>
            { filePath := f, issuesFixed := 0, success := true, errorMessage := none })
        let result :=
          match cleanupLoop env files env.maxIterations 0 tallies0 none with
          | .finished _ _ tallies last _ =>
            { success := true, filesProcessed := tallies, tempProject := some tp
              analysisResult := last, totalIssuesFixed := sumIssuesFixed tallies
              errorMessage := none }
          | .analysisFailed iter a tallies _ =>
            { success := false, filesProcessed := tallies, tempProject := some tp
              analysisResult := some a, totalIssuesFixed := 0
              errorMessage := some ("Analysis failed at iteration " ++ toString (iter + 1)
                ++ ": " ++ optMsg a.errorMessage) }
          | .raised e _ => cleanupFailure e (some tp)
        (result, 1, deleteWarnings)

/-! ## Concrete inputs used by the witness theorems -/

/-- A fixable OPEN issue at line 50. -/
def sampleIssueHigh : SonarQubeIssue :=
  { key := "ISS-1", rule := "python:S1481", message := "remove unused variable"
    line := some 50, severity := some "MAJOR", status := some "OPEN" }

/-- A fixable OPEN issue at line 10. -/
def sampleIssueLow : SonarQubeIssue :=
  { key := "ISS-2", rule := "python:S1066", message := "merge the if statements"
    line := some 10, severity := some "MINOR", status := some "OPEN" }

/-- A RESOLVED (terminal) issue at line 5. -/
def sampleIssueResolved : SonarQubeIssue :=
  { key := "ISS-3", rule := "python:S1481", message := "already resolved"
    line := some 5, severity := some "MAJOR", status := some "RESOLVED" }

/-- A raw API issue with a line number and no status information at all. -/
def sampleRawIssue : RawSonarQubeIssue :=
  { key := "ISS-5", rule := "python:S1481", message := "raw", line := some 3
    issueStatus := none, impacts := [], severity := none, status := none }

/-- An issue whose terminal status arrives in lower case. -/
def sampleIssueLowercaseResolved : SonarQubeIssue :=
  { key := "ISS-6", rule := "python:S1481", message := "lower case status"
    line := some 7, severity := some "MAJOR", status := some "resolved" }

/-- A one-file tree holding the original content. -/
def treeOld : GitTree := (∅ : GitTree).insert "a.py" "print(1)"

/-- The same tree after the fix rewrote the file. -/
def treeNew : GitTree := (∅ : GitTree).insert "a.py" "print(2)"

/-- A clean repository: HEAD, index and working tree agree. -/
def cleanRepo : GitState :=
  { head := treeOld, index := treeOld, worktree := treeOld, headCommit := 0, nextSha := 1 }

/-- A repository whose working tree carries one modified file. -/
def dirtyRepo : GitState :=
  { head := treeOld, index := treeOld, worktree := treeNew, headCommit := 0, nextSha := 1 }

/-- The state `dirtyRepo` reaches after a successful auto-detect commit. -/
def fixedRepo : GitState :=
  { head := treeNew, index := treeNew, worktree := treeNew, headCommit := 1, nextSha := 2 }

/-- Number of loop iterations that started (analysis runs) recorded in a
loop outcome. -/
def LoopOut.runs : LoopOut → Nat
  | .finished _ _ _ _ r => r
  | .analysisFailed _ _ _ r => r
  | .raised _ r => r

/-- The fixable-finding count of one iteration summed over all modified
files, as `_check_files_for_issues` computes it (a missing component counts
zero; a non-tolerated fetch error aborts the walk instead, so the sum is
only meaningful on iterations whose walk completed). -/
def totalFixable (env : CleanupEnv) (iter : Nat) (files : List String) : Nat :=
  (files.map (fun f =>
    match env.fetchIssues iter f with
    | .issues is => (is.filter (fun i => i.is_fixable)).length
    | .componentNotFound => 0
    | .otherError _ => 0)).sum

/-- Whether a `cleanup_branch` run reaches the point where the ephemeral
project has been created. -/
def projectCreated (env : CleanupEnv) : Bool :=
  match env.modifiedFilesResult with
  | .error _ => false
  | .ok files0 =>
    if validateAndFilterFiles env files0 = [] then false
    else
      match env.createProject with
      | .error _ => false
      | .ok _ => true

/-- A branch environment that converges at once: the single modified file
reports no issues. -/
def sampleEnvA : CleanupEnv :=
  { maxIterations := 2
    modifiedFilesResult := .ok ["a.py"]
    patterns := none
    globMatch := fun _ _ => false
    createProject := .ok { projectKey := "tmp_k", projectName := "tmp" }
    runAnalysis := fun _ => { success := true, errorMessage := none }
    fetchIssues := fun _ _ => .issues []
    refetchIssues := fun _ _ => .ok []
    fixFile := fun _ _ => .ok FixSummary.empty
    deleteProject := .ok () }

/-- A branch environment that exhausts its one-iteration budget with a
finding still outstanding: every analysis pass reports one fixable issue. -/
def sampleEnvB : CleanupEnv :=
  { maxIterations := 1
    modifiedFilesResult := .ok ["a.py"]
    patterns := none
    globMatch := fun _ _ => false
    createProject := .ok { projectKey := "tmp_k", projectName := "tmp" }
    runAnalysis := fun _ => { success := true, errorMessage := none }
    fetchIssues := fun _ _ => .issues [sampleIssueHigh]
    refetchIssues := fun _ _ => .ok [sampleIssueHigh]
    fixFile := fun _ _ =>
      .ok { total_issues := 1, fixed := 1, failed := 0, skipped := 0
            commits := [some "abc123"] }
    deleteProject := .ok () }

/-! ## Lemmas about the stable descending sort -/

theorem insertDescBy_perm (key : α → Int) (a : α) (l : List α) :
    List.Perm (insertDescBy key a l) (a :: l) := by
  induction l with
  | nil => simp [insertDescBy]
  | cons b t ih =>
    simp only [insertDescBy]
    by_cases h : key a < key b
    · simp only [h, if_pos]
      exact ((ih.cons b).trans (List.Perm.swap a b t))
    · simp [h]

theorem pySortDescBy_perm (key : α → Int) (l : List α) :
    List.Perm (pySortDescBy key l) l := by
  induction l with
  | nil => simp [pySortDescBy]
  | cons a t ih =>
    exact (insertDescBy_perm key a (pySortDescBy key t)).trans (ih.cons a)

theorem mem_pySortDescBy (key : α → Int) (l : List α) (x : α) :
    x ∈ pySortDescBy key l ↔ x ∈ l :=
  (pySortDescBy_perm key l).mem_iff

theorem pairwise_insertDescBy (key : α → Int) (a : α) (l : List α)
    (h : l.Pairwise (fun x y => key y ≤ key x)) :
    (insertDescBy key a l).Pairwise (fun x y => key y ≤ key x) := by
  induction l with
  | nil => simp [insertDescBy]
  | cons b t ih =>
    rcases List.pairwise_cons.mp h with ⟨hb, ht⟩
    simp only [insertDescBy]
    by_cases hab : key a < key b
    · simp only [hab, if_pos]
      refine List.pairwise_cons.mpr ⟨?_, ih ht⟩
      intro x hx
      rcases List.mem_cons.mp (((insertDescBy_perm key a t).mem_iff).mp hx) with hxa | hxt
      · subst hxa; exact le_of_lt hab
      · exact hb x hxt
    · simp only [hab, if_neg, not_false_iff]
      refine List.pairwise_cons.mpr ⟨?_, List.pairwise_cons.mpr ⟨hb, ht⟩⟩
      intro x hx
      rcases List.mem_cons.mp hx with hxb | hxt
      · subst hxb; exact le_of_not_lt hab
      · exact le_trans (hb x hxt) (le_of_not_lt hab)

theorem pairwise_pySortDescBy (key : α → Int) (l : List α) :
    (pySortDescBy key l).Pairwise (fun x y => key y ≤ key x) := by
  induction l with
  | nil => simp [pySortDescBy]
  | cons a t ih => exact pairwise_insertDescBy key a _ ih

theorem filter_insertDescBy (key : α → Int) (a : α) (l : List α) (v : Int) :
    (insertDescBy key a l).filter (fun x => key x = v) =
      if key a = v then a :: l.filter (fun x => key x = v)
      else l.filter (fun x => key x = v) := by
  induction l with
  | nil => by_cases h : key a = v <;> simp [insertDescBy, List.filter, h]
  | cons b t ih =>
    simp only [insertDescBy]
    by_cases hab : key a < key b
    · simp only [hab, if_pos]
      by_cases hbv : key b = v
      · have hav : ¬(key a = v) := by omega
        simp [List.filter, hbv, hav, ih]
      · simp only [List.filter, decide_eq_true_eq, hbv, if_neg, not_false_iff]
        by_cases hav : key a = v <;> simp [hav, ih, List.filter_cons, hbv]
    · rw [if_neg hab]
      by_cases hav : key a = v <;> simp [List.filter_cons, hav]

theorem filter_pySortDescBy (key : α → Int) (l : List α) (v : Int) :
    (pySortDescBy key l).filter (fun x => key x = v) =
      l.filter (fun x => key x = v) := by
  induction l with
  | nil => simp [pySortDescBy]
  | cons a t ih =>
    simp only [pySortDescBy, filter_insertDescBy, List.filter_cons]
    by_cases hav : key a = v <;> simp [hav, ih]

/-! ## Lemmas about the issue processor -/

theorem is_fixable_line_ne_none {i : SonarQubeIssue} (h : i.is_fixable = true) :
    i.line ≠ none := by
  intro hl
  simp [SonarQubeIssue.is_fixable, hl] at h

theorem mem_fixableAfterFilters {i : SonarQubeIssue} {minSeverity : Option String}
    {issues : List SonarQubeIssue} (h : i ∈ fixableAfterFilters minSeverity issues) :
    i.is_fixable = true ∧ i ∈ issues := by
  unfold fixableAfterFilters at h
  by_cases ht : pyTruthy minSeverity = true
  · simp only [ht, if_pos] at h
    have h1 := List.mem_of_mem_filter h
    exact ⟨(List.mem_filter.mp h1).2, List.mem_of_mem_filter h1⟩
  · simp only [ht] at h
    simp only [Bool.false_eq_true, if_false] at h
    exact ⟨(List.mem_filter.mp h).2, List.mem_of_mem_filter h⟩

theorem fixableAfterFilters_sublist (minSeverity : Option String)
    (issues : List SonarQubeIssue) :
    (fixableAfterFilters minSeverity issues).Sublist issues := by
  unfold fixableAfterFilters
  by_cases ht : pyTruthy minSeverity = true
  · simp only [ht, if_pos]
    exact (List.filter_sublist _).trans (List.filter_sublist _)
  · simp only [ht]
    simp only [Bool.false_eq_true, if_false]
    exact List.filter_sublist _

theorem sortByLineDescending_of_all_lines (l : List SonarQubeIssue)
    (h : ∀ i ∈ l, i.line ≠ none) :
    sortByLineDescending l = pySortDescBy lineKey l := by
  unfold sortByLineDescending
  have h1 : l.filter (fun i => i.line ≠ none) = l :=
    List.filter_eq_self.mpr (fun i hi => by simpa using h i hi)
  have h2 : l.filter (fun i => i.line = none) = [] := by
    rw [List.filter_eq_nil_iff]
    intro i hi
    simpa using h i hi
  rw [h1, h2, List.append_nil]

theorem sortByLineDescending_perm (l : List SonarQubeIssue) :
    List.Perm (sortByLineDescending l) l := by
  unfold sortByLineDescending
  have hfun : (fun i : SonarQubeIssue => decide (i.line = none))
      = fun i => !(decide (i.line ≠ none)) := by
    funext i
    cases h : i.line <;> simp [h]
  refine ((pySortDescBy_perm lineKey _).append_right _).trans ?_
  rw [hfun]
  exact List.filter_append_perm _ l

theorem issues_to_fix_sublist (minSeverity : Option String) (maxIssues : Option Int)
    (issues : List SonarQubeIssue) :
    (IssueProcessor.process minSeverity maxIssues issues).issues_to_fix.Sublist
      (sortByLineDescending (fixableAfterFilters minSeverity issues)) := by
  unfold IssueProcessor.process
  cases maxIssues with
  | none => simp
  | some n =>
    by_cases hn : 0 < n
    · simp only [hn, if_pos]
      exact List.take_sublist _ _
    · simp [hn]

theorem mem_issues_to_fix {minSeverity : Option String} {maxIssues : Option Int}
    {issues : List SonarQubeIssue} {i : SonarQubeIssue}
    (h : i ∈ (IssueProcessor.process minSeverity maxIssues issues).issues_to_fix) :
    i ∈ fixableAfterFilters minSeverity issues := by
  have h1 := (issues_to_fix_sublist minSeverity maxIssues issues).subset h
  exact (sortByLineDescending_perm _).subset h1

/-! ## Claim C4: descending order and stable ties -/

/-- C4: for every input list of findings with pairwise-distinct line numbers,
the sequence produced by `process` is sorted strictly descending by line
number; and the sort used by `process` is stable: entries with tying line
numbers keep their relative input order (for both the issue processor and the
duplication processor). -/
theorem c4_ordering_and_stability (issues : List SonarQubeIssue)
    (minSeverity : Option String) (maxIssues : Option Int) :
    (issues.Pairwise (fun a b => a.line ≠ b.line) →
        (IssueProcessor.process minSeverity maxIssues issues).issues_to_fix.Pairwise
          (fun a b => lineKey b < lineKey a))
      ∧ (∀ (l : List SonarQubeIssue) (v : Int), (∀ i ∈ l, i.line ≠ none) →
          (sortByLineDescending l).filter (fun x => lineKey x = v)
            = l.filter (fun x => lineKey x = v))
      ∧ (∀ (maxDup : Option Int) (resp : DuplicationsResponse) (ck targetRef : String),
          resp.get_target_file_ref ck = some targetRef →
          resp.duplications.Pairwise
            (fun g1 g2 => dupStartLine targetRef g1 ≠ dupStartLine targetRef g2) →
          (DuplicationProcessor.process maxDup resp ck).groups_to_fix.Pairwise
            (fun g1 g2 => dupStartLine targetRef g2 < dupStartLine targetRef g1)) := by
  refine ⟨?_, ?_, ?_⟩
  · intro h2
    have hFlines : ∀ i ∈ fixableAfterFilters minSeverity issues, i.line ≠ none :=
      fun i hi => is_fixable_line_ne_none (mem_fixableAfterFilters hi).1
    have hEq := sortByLineDescending_of_all_lines _ hFlines
    have hle := pairwise_pySortDescBy lineKey (fixableAfterFilters minSeverity issues)
    have hneF : (fixableAfterFilters minSeverity issues).Pairwise
        (fun a b => a.line ≠ b.line) :=
      List.Pairwise.sublist (fixableAfterFilters_sublist minSeverity issues) h2
    have hneKey : (fixableAfterFilters minSeverity issues).Pairwise
        (fun a b => lineKey a ≠ lineKey b) := by
      refine List.Pairwise.imp_of_mem ?_ hneF
      intro a b ha hb hr
      cases hA : a.line with
      | none => exact absurd hA (hFlines a ha)
      | some la =>
        cases hB : b.line with
        | none => exact absurd hB (hFlines b hb)
        | some lb =>
          simp only [lineKey, hA, hB, Option.getD_some]
          intro heq
          exact hr (by rw [hA, hB, heq])
    have hneS : (pySortDescBy lineKey (fixableAfterFilters minSeverity issues)).Pairwise
        (fun a b => lineKey a ≠ lineKey b) :=
      ((pySortDescBy_perm lineKey _).pairwise_iff (fun h => Ne.symm h)).mpr hneKey
    have hlt : (pySortDescBy lineKey (fixableAfterFilters minSeverity issues)).Pairwise
        (fun a b => lineKey b < lineKey a) := by
      refine List.Pairwise.imp ?_ (hle.and hneS)
      intro a b hab
      exact lt_of_le_of_ne hab.1 (fun he => hab.2 he.symm)
    have hfinal := issues_to_fix_sublist minSeverity maxIssues issues
    rw [hEq] at hfinal
    exact List.Pairwise.sublist hfinal hlt
  · intro l v hl
    rw [sortByLineDescending_of_all_lines l hl]
    exact filter_pySortDescBy lineKey l v
  · intro maxDup resp ck targetRef href hne
    have hneG : (resp.duplications.filter
        (fun g => (g.get_target_block targetRef).isSome)).Pairwise
        (fun g1 g2 => dupStartLine targetRef g1 ≠ dupStartLine targetRef g2) :=
      List.Pairwise.sublist (List.filter_sublist _) hne
    have hle := pairwise_pySortDescBy (dupStartLine targetRef)
      (resp.duplications.filter (fun g => (g.get_target_block targetRef).isSome))
    have hneS := ((pySortDescBy_perm (dupStartLine targetRef) _).pairwise_iff (fun h => Ne.symm h)).mpr hneG
    have hlt : (pySortDescBy (dupStartLine targetRef)
        (resp.duplications.filter (fun g => (g.get_target_block targetRef).isSome))).Pairwise
        (fun g1 g2 => dupStartLine targetRef g2 < dupStartLine targetRef g1) := by
      refine List.Pairwise.imp ?_ (hle.and hneS)
      intro a b hab
      exact lt_of_le_of_ne hab.1 (fun he => hab.2 he.symm)
    unfold DuplicationProcessor.process
    simp only [href]
    cases maxDup with
    | none => exact hlt
    | some n =>
      by_cases hn : 0 < n
      · simp only [hn, if_pos]
        exact List.Pairwise.sublist (List.take_sublist _ _) hlt
      · simp only [hn, if_neg, not_false_iff]
        exact hlt

/-- C4 witness: two OPEN issues at lines 10 and 50 come out in the order
[50, 10], and the theorem applies with its hypotheses discharged. -/
theorem c4_witness :
    (IssueProcessor.process none none [sampleIssueLow, sampleIssueHigh]).issues_to_fix.Pairwise
      (fun a b => lineKey b < lineKey a) :=
  (c4_ordering_and_stability [sampleIssueLow, sampleIssueHigh] none none).1 (by decide)

/-! ## Claim C5: terminal or lineless findings never enter the sequence -/

/-- C5: a finding with no line number, or whose upper-cased status is
terminal, never appears in the sequence returned by the issue processor,
regardless of the severity threshold and cap parameters. -/
theorem c5_fixability_filter (issues : List SonarQubeIssue) (minSeverity : Option String)
    (maxIssues : Option Int) (i : SonarQubeIssue)
    (h : i.line = none ∨ pyUpper (i.status.getD "") ∈ terminalStatuses) :
    i ∉ (IssueProcessor.process minSeverity maxIssues issues).issues_to_fix := by
  intro hmem
  have h1 := (mem_fixableAfterFilters (mem_issues_to_fix hmem)).1
  rcases h with hl | hs
  · exact is_fixable_line_ne_none h1 hl
  · unfold SonarQubeIssue.is_fixable at h1
    cases hA : i.line with
    | none => rw [hA] at h1; simp at h1
    | some v => rw [hA] at h1; simp [hs] at h1

/-- C5 witness: the RESOLVED line-5 issue is excluded from the sequence even
though it sits in the input. -/
theorem c5_witness :
    sampleIssueResolved ∉
      (IssueProcessor.process none none
        [sampleIssueHigh, sampleIssueResolved]).issues_to_fix :=
  c5_fixability_filter [sampleIssueHigh, sampleIssueResolved] none none
    sampleIssueResolved (Or.inr (by decide))

/-! ## Claim C8: cap and counters -/

/-- C8: with a positive cap the sequence length is at most the cap (taken
after sorting); with no cap or a non-positive cap the cap has no effect; and
the counters satisfy total = input length, fixable = count surviving the
fixability and severity filters, skipped = total minus the final sequence
length. -/
theorem c8_cap_and_counters (issues : List SonarQubeIssue)
    (minSeverity : Option String) (n : Int) (maxIssues : Option Int) :
    (0 < n →
        ((IssueProcessor.process minSeverity (some n) issues).issues_to_fix.length : Int) ≤ n)
      ∧ (n ≤ 0 →
        IssueProcessor.process minSeverity (some n) issues
          = IssueProcessor.process minSeverity none issues)
      ∧ (IssueProcessor.process minSeverity maxIssues issues).total_issues = issues.length
      ∧ (IssueProcessor.process minSeverity maxIssues issues).fixable_issues
          = (fixableAfterFilters minSeverity issues).length
      ∧ (IssueProcessor.process minSeverity maxIssues issues).skipped_issues
          = issues.length
            - (IssueProcessor.process minSeverity maxIssues issues).issues_to_fix.length := by
  refine ⟨?_, ?_, ?_, ?_, ?_⟩
  · intro hn
    unfold IssueProcessor.process
    simp only [hn, if_pos]
    have h1 : ((sortByLineDescending (fixableAfterFilters minSeverity issues)).take
        n.toNat).length ≤ n.toNat := by
      rw [List.length_take]
      omega
    have h2 : ((sortByLineDescending (fixableAfterFilters minSeverity issues)).take
        n.toNat).length ≤ (n.toNat : Int) := Int.ofNat_le.mpr h1
    rw [Int.toNat_of_nonneg (le_of_lt hn)] at h2
    exact h2
  · intro hn
    unfold IssueProcessor.process
    have : ¬(0 < n) := not_lt.mpr hn
    simp [this]
  · unfold IssueProcessor.process
    rfl
  · unfold IssueProcessor.process
    rfl
  · unfold IssueProcessor.process
    rfl

/-- C8 witness: a cap of 1 on a two-issue worklist yields a one-element
sequence, and the counters line up on a concrete input. -/
theorem c8_witness :
    ((IssueProcessor.process none (some 1)
        [sampleIssueLow, sampleIssueHigh]).issues_to_fix.length : Int) ≤ 1
      ∧ IssueProcessor.process none (some (-3)) [sampleIssueLow, sampleIssueHigh]
          = IssueProcessor.process none none [sampleIssueLow, sampleIssueHigh] :=
  ⟨(c8_cap_and_counters [sampleIssueLow, sampleIssueHigh] none 1 none).1 (by decide),
   ((c8_cap_and_counters [sampleIssueLow, sampleIssueHigh] none (-3) none).2.1 (by decide))⟩

/-! ## Claim C9: severity monotonicity -/

theorem filter_sublist_of_imp {p q : α → Bool} (l : List α)
    (h : ∀ x, q x = true → p x = true) : (l.filter q).Sublist (l.filter p) := by
  induction l with
  | nil => simp
  | cons a t ih =>
    by_cases hq : q a = true
    · have hp := h a hq
      simpa [List.filter_cons, hq, hp] using ih.cons₂ a
    · simp only [List.filter_cons, hq]
      simp only [Bool.false_eq_true, if_false]
      by_cases hp : p a = true
      · simp only [hp, if_pos]
        exact ih.trans (List.sublist_cons_self a _)
      · simp [hp, ih]

theorem fixableAfterFilters_length_mono (issues : List SonarQubeIssue) (s1 s2 : String)
    (h : severityRank (pyUpper s1) < severityRank (pyUpper s2)) :
    (fixableAfterFilters (some s2) issues).length
      ≤ (fixableAfterFilters (some s1) issues).length := by
  have hs2 : s2 ≠ "" := by
    intro he
    rw [he] at h
    have : pyUpper "" = "" := rfl
    rw [this] at h
    simp [severityRank] at h
  unfold fixableAfterFilters
  have ht2 : pyTruthy (some s2) = true := by simp [pyTruthy, hs2]
  by_cases ht1 : pyTruthy (some s1) = true
  · simp only [ht1, ht2, if_pos]
    have hs1 : s1 ≠ "" := by simpa [pyTruthy] using ht1
    have e1 : pyOr (some s1) "" = s1 := by simp [pyOr, hs1]
    have e2 : pyOr (some s2) "" = s2 := by simp [pyOr, hs2]
    simp only [e1, e2]
    refine List.Sublist.length_le (filter_sublist_of_imp _ ?_)
    intro x hx
    simp only [decide_eq_true_eq] at hx ⊢
    omega
  · simp only [ht1, ht2, if_pos]
    simp only [Bool.false_eq_true, if_false]
    exact List.Sublist.length_le (List.filter_sublist _)

/-- C9: for a fixed input list and cap, raising the minimum-severity
threshold to a strictly higher severity ordinal never increases the length of
the sequence returned by `process`. -/
theorem c9_severity_monotonicity (issues : List SonarQubeIssue) (maxIssues : Option Int)
    (s1 s2 : String)
    (h : severityRank (pyUpper s1) < severityRank (pyUpper s2)) :
    (IssueProcessor.process (some s2) maxIssues issues).issues_to_fix.length
      ≤ (IssueProcessor.process (some s1) maxIssues issues).issues_to_fix.length := by
  have hF := fixableAfterFilters_length_mono issues s1 s2 h
  have hs1 : (sortByLineDescending (fixableAfterFilters (some s1) issues)).length
      = (fixableAfterFilters (some s1) issues).length :=
    (sortByLineDescending_perm _).length_eq
  have hs2 : (sortByLineDescending (fixableAfterFilters (some s2) issues)).length
      = (fixableAfterFilters (some s2) issues).length :=
    (sortByLineDescending_perm _).length_eq
  unfold IssueProcessor.process
  cases maxIssues with
  | none =>
    simpa [hs1, hs2] using hF
  | some n =>
    by_cases hn : 0 < n
    · simp only [hn, if_pos, List.length_take, hs1, hs2]
      omega
    · simp only [hn, if_neg, not_false_iff]
      simpa [hs1, hs2] using hF

/-- C9 witness: raising the threshold from MINOR to MAJOR cannot lengthen the
sequence, shown on a concrete two-issue worklist. -/
theorem c9_witness :
    (IssueProcessor.process (some "MAJOR") none
        [sampleIssueLow, sampleIssueHigh]).issues_to_fix.length
      ≤ (IssueProcessor.process (some "MINOR") none
        [sampleIssueLow, sampleIssueHigh]).issues_to_fix.length :=
  c9_severity_monotonicity [sampleIssueLow, sampleIssueHigh] none "MINOR" "MAJOR" (by decide)

/-! ## Claim C10: validator defaults and case-insensitive terminal check -/

theorem defaulted_ne_none (o : Option String) (d : String) :
    (if ¬pyTruthy o then some d else o) ≠ none := by
  cases o with
  | none => simp [pyTruthy]
  | some s => by_cases hs : s = "" <;> simp [pyTruthy, hs]

/-- C10: after the model validator every issue has a non-None status and a
non-None severity; a missing severity defaults to the first impact's severity
(or INFO), a missing status defaults to OPEN; an issue with a line number and
no status information at all is fixable; and the terminal-status check of
`is_fixable` compares the upper-cased status. -/
theorem c10_validator_defaults (r : RawSonarQubeIssue) :
    (extract_fields_from_new_api r).status ≠ none
      ∧ (extract_fields_from_new_api r).severity ≠ none
      ∧ (r.severity = none → r.impacts = [] →
          (extract_fields_from_new_api r).severity = some "INFO")
      ∧ (∀ (sv : String) (rest : List Impact), r.severity = none →
          r.impacts = { severity := some sv } :: rest → sv ≠ "" →
          (extract_fields_from_new_api r).severity = some sv)
      ∧ (r.status = none → r.issueStatus = none →
          (extract_fields_from_new_api r).status = some "OPEN")
      ∧ (∀ l : Int, r.line = some l → r.status = none → r.issueStatus = none →
          (extract_fields_from_new_api r).is_fixable = true)
      ∧ (∀ (i : SonarQubeIssue) (s : String), i.status = some s →
          pyUpper s ∈ terminalStatuses → i.is_fixable = false) := by
  refine ⟨?_, ?_, ?_, ?_, ?_, ?_, ?_⟩
  · simp only [extract_fields_from_new_api]
    exact defaulted_ne_none _ _
  · simp only [extract_fields_from_new_api]
    exact defaulted_ne_none _ _
  · intro h1 h2
    simp [extract_fields_from_new_api, h1, h2, pyTruthy]
  · intro sv rest h1 h2 h3
    simp [extract_fields_from_new_api, h1, h2, pyTruthy, h3]
  · intro h1 h2
    simp [extract_fields_from_new_api, h1, h2, pyTruthy]
  · intro l hl h1 h2
    have hopen : (extract_fields_from_new_api r).status = some "OPEN" := by
      simp [extract_fields_from_new_api, h1, h2, pyTruthy]
    have hline : (extract_fields_from_new_api r).line = some l := by
      simp [extract_fields_from_new_api, hl]
    have hmem : pyUpper "OPEN" ∉ terminalStatuses := by decide
    simp [SonarQubeIssue.is_fixable, hline, hopen, hmem]
  · intro i s hstat hterm
    cases hline : i.line with
    | none => simp [SonarQubeIssue.is_fixable, hline]
    | some v => simp [SonarQubeIssue.is_fixable, hline, hstat, hterm]

/-- C10 witness: the raw issue with a line and no status information becomes
fixable after validation, and a lower-case "resolved" status is treated as
terminal. -/
theorem c10_witness :
    (extract_fields_from_new_api sampleRawIssue).is_fixable = true
      ∧ sampleIssueLowercaseResolved.is_fixable = false :=
  ⟨(c10_validator_defaults sampleRawIssue).2.2.2.2.2.1 3 rfl rfl rfl,
   (c10_validator_defaults sampleRawIssue).2.2.2.2.2.2 sampleIssueLowercaseResolved
     "resolved" rfl (by decide)⟩

/-! ## Lemmas about the git model -/

theorem mem_sortedListOfFinset (s : Finset String) (x : String) :
    x ∈ sortedListOfFinset s ↔ x ∈ s := by
  rcases s with ⟨val, nodup⟩
  induction val using Quotient.inductionOn with
  | h l =>
    show x ∈ List.insertionSort (fun a b => a.data ≤ b.data) l ↔ _
    rw [(List.perm_insertionSort (fun a b : String => a.data ≤ b.data) l).mem_iff]
    simp [Finset.mem_def]

theorem sortedListOfFinset_eq_nil (s : Finset String) :
    sortedListOfFinset s = [] ↔ s = ∅ := by
  constructor
  · intro h
    refine Finset.eq_empty_iff_forall_not_mem.mpr ?_
    intro x hx
    have hm := (mem_sortedListOfFinset s x).mpr hx
    rw [h] at hm
    simp at hm
  · intro h
    subst h
    rfl

theorem lookup_stageFiles (wt idx : GitTree) (files : List String) (k : String) :
    (stageFiles wt idx files).lookup k =
      if k ∈ files then wt.lookup k else idx.lookup k := by
  induction files generalizing idx with
  | nil => simp [stageFiles]
  | cons f fs ih =>
    have hstep : ∀ acc : GitTree,
        ((match wt.lookup f with
          | some c => acc.insert f c
          | none => acc.erase f) : GitTree).lookup k =
          if k = f then wt.lookup f else acc.lookup k := by
      intro acc
      by_cases hk : k = f
      · subst hk
        cases hw : wt.lookup k with
        | none => simp [hw, Finmap.lookup_erase]
        | some c => simp [hw, Finmap.lookup_insert]
      · cases hw : wt.lookup f with
        | none => simp [hw, Finmap.lookup_erase_ne hk, hk]
        | some c => simp [hw, Finmap.lookup_insert_of_ne _ hk, hk]
    show (stageFiles wt _ fs).lookup k = _
    rw [ih, hstep]
    by_cases h2 : k = f
    · subst h2
      by_cases h1 : k ∈ fs <;> simp [h1]
    · by_cases h1 : k ∈ fs <;> simp [h1, h2]

theorem mem_changedFiles {s : GitState} {k : String} :
    k ∈ changedFiles s ↔ k ∈ s.index ∧ s.worktree.lookup k ≠ s.index.lookup k := by
  simp [changedFiles, Finset.mem_filter, Finmap.mem_keys]

theorem stagedFiles_eq_empty_of_index_eq_head {s : GitState} (h : s.index = s.head) :
    stagedFiles s = ∅ := by
  unfold stagedFiles
  rw [Finset.filter_eq_empty_iff]
  intro k _
  rw [h]
  simp

theorem index_eq_head_of_stagedFiles_empty {s : GitState} (h : stagedFiles s = ∅) :
    s.index = s.head := by
  unfold stagedFiles at h
  apply Finmap.ext_lookup
  intro x
  by_cases hx : x ∈ s.index.keys ∪ s.head.keys
  · have hnp := Finset.filter_eq_empty_iff.mp h hx
    exact not_ne_iff.mp hnp
  · have hxi : x ∉ s.index := fun hc => hx (Finset.mem_union_left _ (Finmap.mem_keys.mpr hc))
    have hxh : x ∉ s.head := fun hc => hx (Finset.mem_union_right _ (Finmap.mem_keys.mpr hc))
    rw [Finmap.lookup_eq_none.mpr hxi, Finmap.lookup_eq_none.mpr hxh]

theorem index_eq_head_of_mos_empty {s : GitState} (h : modifiedOrStagedFiles s = ∅) :
    s.index = s.head := by
  refine index_eq_head_of_stagedFiles_empty ?_
  have := Finset.union_eq_empty.mp h
  exact this.2

theorem getAllModifiedFiles_eq_nil {s : GitState} :
    getAllModifiedFiles s = [] ↔ modifiedOrStagedFiles s = ∅ :=
  sortedListOfFinset_eq_nil _

theorem mem_getAllModifiedFiles {s : GitState} {k : String} :
    k ∈ getAllModifiedFiles s ↔ k ∈ modifiedOrStagedFiles s :=
  mem_sortedListOfFinset _ _

theorem stageAndCommit_some_shape {s : GitState} {L : List String} {sha : Nat} {s' : GitState}
    (hL : L ≠ []) (h : stageAndCommit s L = (some sha, s')) :
    sha = s.nextSha ∧
      s' = { head := stageFiles s.worktree s.index L
             index := stageFiles s.worktree s.index L
             worktree := s.worktree, headCommit := s.nextSha, nextSha := s.nextSha + 1 } := by
  simp only [stageAndCommit, if_neg hL] at h
  split at h
  · simp at h
  · rw [Prod.mk.injEq] at h
    obtain ⟨h1, h2⟩ := h
    exact ⟨(Option.some.inj h1).symm, h2.symm⟩

theorem stageAndCommit_none_shape {s : GitState} {L : List String} {s' : GitState}
    (h : stageAndCommit s L = (none, s')) :
    s'.head = s.head ∧ s'.headCommit = s.headCommit := by
  by_cases hnil : L = []
  · simp only [stageAndCommit, if_pos hnil] at h
    by_cases hc : s.index = s.head
    · rw [if_pos hc, Prod.mk.injEq] at h
      obtain ⟨_, h2⟩ := h
      subst h2
      exact ⟨rfl, rfl⟩
    · rw [if_neg hc, Prod.mk.injEq] at h
      simp at h
  · simp only [stageAndCommit, if_neg hnil] at h
    by_cases hc : stageFiles s.worktree s.index L = s.head
    · rw [if_pos hc, Prod.mk.injEq] at h
      obtain ⟨_, h2⟩ := h
      subst h2
      exact ⟨rfl, rfl⟩
    · rw [if_neg hc, Prod.mk.injEq] at h
      simp at h

theorem changedFiles_empty_after_stage {s t : GitState} {L : List String}
    (hW : t.worktree = s.worktree) (hI : t.index = stageFiles s.worktree s.index L)
    (hch : ∀ k ∈ changedFiles s, k ∈ L) : changedFiles t = ∅ := by
  unfold changedFiles
  rw [Finset.filter_eq_empty_iff]
  intro k hk
  rw [not_ne_iff, hW, hI, lookup_stageFiles]
  by_cases hkL : k ∈ L
  · simp [hkL]
  · rw [if_neg hkL]
    rw [hI] at hk
    have hks : k ∈ stageFiles s.worktree s.index L := Finmap.mem_keys.mp hk
    have hkidx : s.index.lookup k ≠ none := by
      intro hno
      have hsome := Finmap.lookup_isSome.mpr hks
      rw [lookup_stageFiles, if_neg hkL, hno] at hsome
      simp at hsome
    by_contra hne
    have hmem : k ∈ changedFiles s := by
      rw [mem_changedFiles]
      refine ⟨?_, hne⟩
      rw [← Finmap.lookup_isSome]
      cases hid : s.index.lookup k with
      | none => exact absurd hid hkidx
      | some c => simp
    exact hkL (hch k hmem)

theorem untrackedFiles_empty_after_stage {s t : GitState} {L : List String}
    (hW : t.worktree = s.worktree) (hI : t.index = stageFiles s.worktree s.index L)
    (hun : ∀ k ∈ untrackedFiles s, k ∈ L) : untrackedFiles t = ∅ := by
  unfold untrackedFiles
  rw [Finset.sdiff_eq_empty_iff_subset]
  intro k hk
  rw [hW] at hk
  have hwk : s.worktree.lookup k ≠ none :=
    fun hno => by
      have := Finmap.lookup_eq_none.mp hno
      exact this (Finmap.mem_keys.mp hk)
  rw [Finmap.mem_keys, ← Finmap.lookup_isSome, hI, lookup_stageFiles]
  by_cases hkL : k ∈ L
  · rw [if_pos hkL]
    cases hw : s.worktree.lookup k with
    | none => exact absurd hw hwk
    | some c => simp
  · rw [if_neg hkL]
    have hkun : k ∉ untrackedFiles s := fun hc => hkL (hun k hc)
    unfold untrackedFiles at hkun
    rw [Finset.mem_sdiff] at hkun
    push_neg at hkun
    have hkidx := hkun hk
    rw [Finmap.mem_keys, ← Finmap.lookup_isSome] at hkidx
    exact hkidx

theorem stage_idempotent {s t : GitState} {L : List String}
    (hW : t.worktree = s.worktree) (hI : t.index = stageFiles s.worktree s.index L) :
    stageFiles t.worktree t.index L = t.index := by
  apply Finmap.ext_lookup
  intro k
  rw [lookup_stageFiles, hW, hI, lookup_stageFiles]
  by_cases hkL : k ∈ L <;> simp [hkL]

theorem commit_fix_explicit (s : GitState) (f : String) (fs : List String) :
    commit_fix s (some (f :: fs)) = .ok (stageAndCommit s (f :: fs)) := by
  simp [commit_fix]

theorem commit_fix_auto (s : GitState) :
    commit_fix s none =
      if getAllModifiedFiles s = [] ∧ s.index = s.head then .ok (none, s)
      else .ok (stageAndCommit s (getAllModifiedFiles s)) := by
  simp [commit_fix]

theorem create_commit_unfold (s : GitState) (files : Option (List String)) (inc : Bool) :
    create_commit s files inc =
      (let files1 :=
        match files with
        | none =>
          getAllModifiedFiles s
            ++ (if inc then sortedListOfFinset (untrackedFiles s) else [])
        | some fs => fs
      if files1 = [] then .error "No files to commit"
      else .ok (stageAndCommit s files1)) := rfl

theorem create_commit_explicit (s : GitState) (fs : List String) (inc : Bool) :
    create_commit s (some fs) inc =
      if fs = [] then .error "No files to commit" else .ok (stageAndCommit s fs) := rfl

theorem create_commit_auto (s : GitState) (inc : Bool) :
    create_commit s none inc =
      if getAllModifiedFiles s
          ++ (if inc then sortedListOfFinset (untrackedFiles s) else []) = [] then
        .error "No files to commit"
      else
        .ok (stageAndCommit s
          (getAllModifiedFiles s
            ++ (if inc then sortedListOfFinset (untrackedFiles s) else []))) := rfl

theorem committed_state_props {s s' : GitState} {L : List String} {sha : Nat}
    (hL : L ≠ []) (h : stageAndCommit s L = (some sha, s'))
    (hch : ∀ k ∈ changedFiles s, k ∈ L) :
    getAllModifiedFiles s' = [] ∧ s'.index = s'.head ∧ s'.worktree = s.worktree ∧
      s'.index = stageFiles s.worktree s.index L := by
  obtain ⟨hsha, hs'⟩ := stageAndCommit_some_shape hL h
  have hW : s'.worktree = s.worktree := by rw [hs']
  have hI : s'.index = stageFiles s.worktree s.index L := by rw [hs']
  have hIH : s'.index = s'.head := by rw [hs']
  have hchE := changedFiles_empty_after_stage hW hI hch
  have hstE := stagedFiles_eq_empty_of_index_eq_head hIH
  refine ⟨?_, hIH, hW, hI⟩
  apply getAllModifiedFiles_eq_nil.mpr
  unfold modifiedOrStagedFiles
  rw [hchE, hstE]
  simp

theorem second_explicit_commit_none {s s' : GitState} {f : String} {fs : List String}
    {sha : Nat} (h : stageAndCommit s (f :: fs) = (some sha, s')) :
    stageAndCommit s' (f :: fs) = (none, s') := by
  obtain ⟨hsha, hs'⟩ := stageAndCommit_some_shape (List.cons_ne_nil f fs) h
  have hW : s'.worktree = s.worktree := by rw [hs']
  have hI : s'.index = stageFiles s.worktree s.index (f :: fs) := by rw [hs']
  have hIH : s'.index = s'.head := by rw [hs']
  have hidem := stage_idempotent hW hI
  simp only [stageAndCommit, if_neg (List.cons_ne_nil f fs)]
  rw [hidem]
  rw [if_pos hIH]

/-! ## Claim C2: idempotent commit, no empty commits -/

/-- C2 (amended): when a `commit_fix` call returns a real commit id, a second
call with the same arguments and no intervening working-tree change returns
`None`; the same holds for `create_commit` with an explicit non-empty file
list, while `create_commit` with `files=None` raises "No files to commit" on
the second call instead of returning `None`; and after any `None`-returning
commit call the repository HEAD is unchanged. -/
theorem c2_idempotent_commit_amended :
    (∀ (s : GitState) (files : Option (List String)) (sha : Nat) (s' : GitState),
        commit_fix s files = .ok (some sha, s') →
        commit_fix s' files = .ok (none, s'))
      ∧ (∀ (s : GitState) (fs : List String) (inc : Bool) (sha : Nat) (s' : GitState),
          create_commit s (some fs) inc = .ok (some sha, s') →
          create_commit s' (some fs) inc = .ok (none, s'))
      ∧ (∀ (s : GitState) (inc : Bool) (sha : Nat) (s' : GitState),
          create_commit s none inc = .ok (some sha, s') →
          create_commit s' none inc = .error "No files to commit")
      ∧ (∀ (s : GitState) (files : Option (List String)) (s' : GitState),
          commit_fix s files = .ok (none, s') →
          s'.head = s.head ∧ s'.headCommit = s.headCommit)
      ∧ (∀ (s : GitState) (files : Option (List String)) (inc : Bool) (s' : GitState),
          create_commit s files inc = .ok (none, s') →
          s'.head = s.head ∧ s'.headCommit = s.headCommit) := by
  refine ⟨?_, ?_, ?_, ?_, ?_⟩
  · intro s files sha s' h
    cases files with
    | none =>
      rw [commit_fix_auto] at h
      by_cases hc : getAllModifiedFiles s = [] ∧ s.index = s.head
      · rw [if_pos hc] at h
        exact absurd (Except.ok.inj h) (by simp)
      · rw [if_neg hc] at h
        have hsc := Except.ok.inj h
        have hLne : getAllModifiedFiles s ≠ [] := fun hnil =>
          hc ⟨hnil, index_eq_head_of_mos_empty (getAllModifiedFiles_eq_nil.mp hnil)⟩
        have hch : ∀ k ∈ changedFiles s, k ∈ getAllModifiedFiles s := fun k hk =>
          mem_getAllModifiedFiles.mpr (Finset.mem_union_left _ hk)
        obtain ⟨hnil', hIH, _, _⟩ := committed_state_props hLne hsc hch
        rw [commit_fix_auto, if_pos ⟨hnil', hIH⟩]
    | some fs =>
      cases fs with
      | nil => simp [commit_fix] at h
      | cons f fs' =>
        rw [commit_fix_explicit] at h
        have hsc := Except.ok.inj h
        rw [commit_fix_explicit, second_explicit_commit_none hsc]
  · intro s fs inc sha s' h
    rw [create_commit_explicit] at h
    cases fs with
    | nil => simp at h
    | cons f fs' =>
      rw [if_neg (List.cons_ne_nil f fs')] at h
      have hsc := Except.ok.inj h
      rw [create_commit_explicit, if_neg (List.cons_ne_nil f fs'),
        second_explicit_commit_none hsc]
  · intro s inc sha s' h
    rw [create_commit_auto] at h
    by_cases hL : getAllModifiedFiles s
        ++ (if inc then sortedListOfFinset (untrackedFiles s) else []) = []
    · rw [if_pos hL] at h
      simp at h
    · rw [if_neg hL] at h
      have hsc := Except.ok.inj h
      have hch : ∀ k ∈ changedFiles s,
          k ∈ getAllModifiedFiles s
            ++ (if inc then sortedListOfFinset (untrackedFiles s) else []) := fun k hk =>
        List.mem_append_left _ (mem_getAllModifiedFiles.mpr (Finset.mem_union_left _ hk))
      obtain ⟨hnil', hIH, hW, hI⟩ := committed_state_props hL hsc hch
      rw [create_commit_auto]
      have huemp : (if inc then sortedListOfFinset (untrackedFiles s') else []) = [] := by
        by_cases hinc : inc = true
        · rw [if_pos hinc]
          have hun : ∀ k ∈ untrackedFiles s,
              k ∈ getAllModifiedFiles s
                ++ (if inc then sortedListOfFinset (untrackedFiles s) else []) := by
            intro k hk
            refine List.mem_append_right _ ?_
            rw [if_pos hinc]
            exact (mem_sortedListOfFinset _ _).mpr hk
          rw [untrackedFiles_empty_after_stage hW hI hun]
          exact (sortedListOfFinset_eq_nil _).mpr rfl
        · rw [if_neg hinc]
      rw [if_pos (by rw [hnil', huemp]; rfl)]
  · intro s files s' h
    cases files with
    | none =>
      rw [commit_fix_auto] at h
      by_cases hc : getAllModifiedFiles s = [] ∧ s.index = s.head
      · rw [if_pos hc] at h
        have h2 := (Prod.mk.injEq _ _ _ _).mp (Except.ok.inj h)
        rw [← h2.2]
        exact ⟨rfl, rfl⟩
      · rw [if_neg hc] at h
        exact stageAndCommit_none_shape (Except.ok.inj h)
    | some fs =>
      cases fs with
      | nil => simp [commit_fix] at h
      | cons f fs' =>
        rw [commit_fix_explicit] at h
        exact stageAndCommit_none_shape (Except.ok.inj h)
  · intro s files inc s' h
    cases files with
    | none =>
      rw [create_commit_auto] at h
      by_cases hL : getAllModifiedFiles s
          ++ (if inc then sortedListOfFinset (untrackedFiles s) else []) = []
      · rw [if_pos hL] at h
        simp at h
      · rw [if_neg hL] at h
        exact stageAndCommit_none_shape (Except.ok.inj h)
    | some fs =>
      rw [create_commit_explicit] at h
      by_cases hf : fs = []
      · rw [if_pos hf] at h
        simp at h
      · rw [if_neg hf] at h
        exact stageAndCommit_none_shape (Except.ok.inj h)

/-- C2 counterexample: on a clean repository the first `commit_fix` call
already returns `None` (not a real commit identifier), and after a
`create_commit(files=None)` call that did return a real identifier, the
second call raises "No files to commit" instead of returning `None` — so the
claim fails as stated, in both directions, at these concrete states. -/
theorem c2_counterexample :
    commit_fix cleanRepo none = .ok (none, cleanRepo)
      ∧ create_commit dirtyRepo none false = .ok (some 1, fixedRepo)
      ∧ create_commit fixedRepo none false = .error "No files to commit" :=
  ⟨by decide, by decide, by decide⟩

/-- C2 witness: the amended theorem applied at concrete repositories — a
second `commit_fix` after a real commit returns `None`, a second
auto-detecting `create_commit` raises, and a `None`-returning `commit_fix`
leaves HEAD untouched. -/
theorem c2_witness :
    commit_fix fixedRepo none = .ok (none, fixedRepo)
      ∧ create_commit fixedRepo none false = .error "No files to commit"
      ∧ cleanRepo.head = cleanRepo.head ∧ cleanRepo.headCommit = cleanRepo.headCommit :=
  ⟨c2_idempotent_commit_amended.1 dirtyRepo none 1 fixedRepo (by decide),
   c2_idempotent_commit_amended.2.2.1 dirtyRepo false 1 fixedRepo (by decide),
   c2_idempotent_commit_amended.2.2.2.1 cleanRepo none cleanRepo (by decide)⟩

/-! ## Claim C3: explicit empty file list versus auto-detect found nothing -/

/-- C3 counterexample: for `create_commit` the auto-detect-found-nothing case
IS an error — on a clean repository it raises the very same
"No files to commit" error as an explicit empty list, with or without
untracked-file detection — so the two cases are not distinct for
`create_commit` as the claim states. -/
theorem c3_counterexample :
    create_commit cleanRepo none false = .error "No files to commit"
      ∧ create_commit cleanRepo none true = .error "No files to commit" :=
  ⟨by decide, by decide⟩

/-- C3 (amended): an explicit empty file list raises "No files to commit"
for both `commit_fix` and `create_commit`; auto-detection finding nothing is
the `None`-returning no-op outcome for `commit_fix` only, while for
`create_commit` auto-detection finding nothing raises the same error as an
explicit empty list. -/
theorem c3_empty_files_amended :
    (∀ s : GitState, commit_fix s (some []) = .error "No files to commit")
      ∧ (∀ (s : GitState) (inc : Bool),
          create_commit s (some []) inc = .error "No files to commit")
      ∧ (∀ s : GitState, modifiedOrStagedFiles s = ∅ → commit_fix s none = .ok (none, s))
      ∧ (∀ (s : GitState) (inc : Bool), modifiedOrStagedFiles s = ∅ →
          untrackedFiles s = ∅ → create_commit s none inc = .error "No files to commit") := by
  refine ⟨fun s => rfl, fun s inc => rfl, ?_, ?_⟩
  · intro s h
    rw [commit_fix_auto,
      if_pos ⟨getAllModifiedFiles_eq_nil.mpr h, index_eq_head_of_mos_empty h⟩]
  · intro s inc h1 h2
    rw [create_commit_auto]
    have hnil : getAllModifiedFiles s = [] := getAllModifiedFiles_eq_nil.mpr h1
    have huemp : (if inc then sortedListOfFinset (untrackedFiles s) else []) = [] := by
      by_cases hinc : inc = true
      · rw [if_pos hinc, h2]
        exact (sortedListOfFinset_eq_nil _).mpr rfl
      · rw [if_neg hinc]
    rw [if_pos (by rw [hnil, huemp]; rfl)]

/-- C3 witness: on the clean repository, `commit_fix` auto-detect is the
`None` no-op while `create_commit` auto-detect raises, via the amended
theorem with its hypotheses discharged. -/
theorem c3_witness :
    commit_fix cleanRepo none = .ok (none, cleanRepo)
      ∧ create_commit cleanRepo none true = .error "No files to commit" :=
  ⟨c3_empty_files_amended.2.2.1 cleanRepo (by decide),
   c3_empty_files_amended.2.2.2 cleanRepo true (by decide) (by decide)⟩

/-! ## Claim C1: a None-returning commit_fix in the single-file issue flow -/

/-- C1: evaluation at the failing input.  In the single-file issue flow
(`VibeHealOrchestrator._process_issues`), when the agent reports success and
`commit_fix` returns `None` (no-op, already fixed), the code increments the
FIXED counter and records `None` in the commit list — not the skipped
counter, contradicting the spec.  The deduplication flow
(`_handle_fix_result`), on the same outcome, increments SKIPPED and records
nothing, as the spec describes. -/
theorem c1_noop_commit_counted_as_fixed :
    processIssues
        (fun _ => { success := true, errorMessage := none, filesModified := ["test.py"] })
        (fun _ _ => .ok none) [sampleIssueHigh] false
      = { total_issues := 0, fixed := 1, failed := 0, skipped := 0, commits := [none] }
      ∧ handleFixResult
          { success := true, errorMessage := none, filesModified := ["test.py"] }
          { blocks := [{ from_line := 50, size := 3, ref := "1" }] } "1" false (.ok none)
          FixSummary.empty
        = { total_issues := 0, fixed := 0, failed := 0, skipped := 1, commits := [] } :=
  ⟨rfl, rfl⟩

/-! ## Claim C6: the ephemeral project is deleted exactly once -/

theorem checkFilesGo_congr {env1 env2 : CleanupEnv}
    (hf : env1.fetchIssues = env2.fetchIssues) (iter : Nat) :
    ∀ (files : List String) (t : Nat) (acc : List String),
      checkFilesGo env1 iter files t acc = checkFilesGo env2 iter files t acc := by
  intro files
  induction files with
  | nil => intro t acc; rfl
  | cons f fs ih =>
    intro t acc
    simp only [checkFilesGo, hf]
    cases env2.fetchIssues iter f with
    | issues is =>
      by_cases hfx : ((is.filter (fun i => i.is_fixable)).length > 0) <;> simp [hfx, ih]
    | componentNotFound => exact ih t acc
    | otherError e => rfl

theorem fixFilesGo_congr {env1 env2 : CleanupEnv}
    (hr : env1.refetchIssues = env2.refetchIssues) (hx : env1.fixFile = env2.fixFile)
    (iter : Nat) :
    ∀ (files : List String) (tallies : List FileCleanupResult),
      fixFilesGo env1 iter files tallies = fixFilesGo env2 iter files tallies := by
  intro files
  induction files with
  | nil => intro tallies; rfl
  | cons f fs ih =>
    intro tallies
    simp only [fixFilesGo, hr, hx]
    cases env2.refetchIssues iter f with
    | error e => rfl
    | ok is =>
      cases env2.fixFile iter f with
      | error e => rfl
      | ok fs1 => exact ih _

theorem cleanupLoop_congr {env1 env2 : CleanupEnv}
    (ha : env1.runAnalysis = env2.runAnalysis)
    (hf : env1.fetchIssues = env2.fetchIssues)
    (hr : env1.refetchIssues = env2.refetchIssues)
    (hx : env1.fixFile = env2.fixFile) (files : List String) :
    ∀ (fuel iter : Nat) (tallies : List FileCleanupResult) (last : Option AnalysisResult),
      cleanupLoop env1 files fuel iter tallies last
        = cleanupLoop env2 files fuel iter tallies last := by
  intro fuel
  induction fuel with
  | zero => intro iter tallies last; rfl
  | succ n ih =>
    intro iter tallies last
    simp only [cleanupLoop, ha, checkFilesForIssues, checkFilesGo_congr hf]
    by_cases hok : (env2.runAnalysis iter).success = true
    · simp only [hok]
      cases checkFilesGo env2 iter files 0 [] with
      | error e => simp
      | ok p =>
        rcases p with ⟨total, fwi⟩
        by_cases htz : total = 0
        · simp [htz]
        · simp only [if_neg htz]
          simp only [fixFilesGo_congr hr hx]
          cases fixFilesGo env2 iter fwi tallies with
          | error e => simp
          | ok t1 => simp [ih]
    · simp [hok]

theorem cleanup_branch_result_congr {env1 env2 : CleanupEnv}
    (h1 : env1.maxIterations = env2.maxIterations)
    (h2 : env1.modifiedFilesResult = env2.modifiedFilesResult)
    (h3 : env1.patterns = env2.patterns)
    (h4 : env1.globMatch = env2.globMatch)
    (h5 : env1.createProject = env2.createProject)
    (ha : env1.runAnalysis = env2.runAnalysis)
    (hf : env1.fetchIssues = env2.fetchIssues)
    (hr : env1.refetchIssues = env2.refetchIssues)
    (hx : env1.fixFile = env2.fixFile) :
    (cleanup_branch env1).1 = (cleanup_branch env2).1 := by
  have hv : ∀ fs, validateAndFilterFiles env1 fs = validateAndFilterFiles env2 fs := by
    intro fs
    unfold validateAndFilterFiles filterByPatterns
    rw [h3, h4]
  unfold cleanup_branch
  rw [h2]
  cases henv : env2.modifiedFilesResult with
  | error e => rfl
  | ok files0 =>
    simp only [hv]
    by_cases hfe : validateAndFilterFiles env2 files0 = []
    · simp [hfe]
    · simp only [if_neg hfe]
      rw [h5]
      cases env2.createProject with
      | error e => rfl
      | ok tp =>
        simp only [h1, cleanupLoop_congr ha hf hr hx]

theorem cleanup_branch_deletes (env : CleanupEnv) :
    (cleanup_branch env).2.1 = if projectCreated env then 1 else 0 := by
  unfold cleanup_branch projectCreated
  cases env.modifiedFilesResult with
  | error e => rfl
  | ok files0 =>
    by_cases hfe : validateAndFilterFiles env files0 = []
    · simp [hfe]
    · simp only [if_neg hfe]
      cases env.createProject with
      | error e => rfl
      | ok tp => rfl

theorem cleanup_branch_warnings (env : CleanupEnv) :
    (cleanup_branch env).2.2 =
      (if projectCreated env then
        (match env.deleteProject with
          | .ok _ => []
          | .error e => ["Failed to delete temporary project: " ++ e])
      else []) := by
  unfold cleanup_branch projectCreated
  cases env.modifiedFilesResult with
  | error e => rfl
  | ok files0 =>
    by_cases hfe : validateAndFilterFiles env files0 = []
    · simp [hfe]
    · simp only [if_neg hfe]
      cases env.createProject with
      | error e => rfl
      | ok tp => rfl

/-- C6: the ephemeral project's delete call runs exactly once per branch run
in which the project was created (zero times otherwise) on every exit path,
and a failing delete is only turned into a warning — it never changes the
returned result. -/
theorem c6_cleanup_guarantee (env : CleanupEnv) (m : String) :
    ((cleanup_branch env).2.1 = if projectCreated env then 1 else 0)
      ∧ (cleanup_branch { env with deleteProject := .error m }).1 = (cleanup_branch env).1
      ∧ ((cleanup_branch { env with deleteProject := .error m }).2.2
          = if projectCreated env then ["Failed to delete temporary project: " ++ m] else [])
      ∧ (cleanup_branch { env with deleteProject := .ok () }).2.2 = [] := by
  have hpc : ∀ d : Except String Unit,
      projectCreated { env with deleteProject := d } = projectCreated env := fun _ => rfl
  refine ⟨cleanup_branch_deletes env, ?_, ?_, ?_⟩
  · exact cleanup_branch_result_congr rfl rfl rfl rfl rfl rfl rfl rfl rfl
  · rw [cleanup_branch_warnings { env with deleteProject := .error m }, hpc]
  · rw [cleanup_branch_warnings { env with deleteProject := .ok () }, hpc]
    simp

/-! ## Claim C7: loop budget, break condition, exhausted budget -/

theorem checkFilesGo_total (env : CleanupEnv) (iter : Nat) :
    ∀ (files : List String) (t0 : Nat) (acc : List String) (t : Nat) (fwi : List String),
      checkFilesGo env iter files t0 acc = .ok (t, fwi) →
      t = t0 + totalFixable env iter files := by
  intro files
  induction files with
  | nil =>
    intro t0 acc t fwi h
    simp only [checkFilesGo] at h
    obtain ⟨h1, _⟩ := Prod.mk.injEq .. ▸ Except.ok.inj h
    simp [totalFixable, ← h1]
  | cons f fs ih =>
    intro t0 acc t fwi h
    simp only [checkFilesGo] at h
    cases hf : env.fetchIssues iter f with
    | issues is =>
      rw [hf] at h
      dsimp only at h
      simp only [totalFixable, List.map_cons, List.sum_cons, hf]
      by_cases hfx : ((is.filter (fun i => i.is_fixable)).length > 0)
      · rw [if_pos hfx] at h
        have := ih _ _ _ _ h
        simp only [totalFixable] at this
        omega
      · rw [if_neg hfx] at h
        have := ih _ _ _ _ h
        simp only [totalFixable] at this
        omega
    | componentNotFound =>
      rw [hf] at h
      dsimp only at h
      have := ih _ _ _ _ h
      simp only [totalFixable, List.map_cons, List.sum_cons, hf] at this ⊢
      omega
    | otherError e =>
      rw [hf] at h
      dsimp only at h
      simp at h

theorem cleanupLoop_runs_le (env : CleanupEnv) (files : List String) :
    ∀ (fuel iter : Nat) (tallies : List FileCleanupResult) (last : Option AnalysisResult),
      (cleanupLoop env files fuel iter tallies last).runs ≤ fuel := by
  intro fuel
  induction fuel with
  | zero =>
    intro iter tallies last
    simp [cleanupLoop, LoopOut.runs]
  | succ n ih =>
    intro iter tallies last
    simp only [cleanupLoop]
    by_cases hok : (env.runAnalysis iter).success = true
    · rw [if_neg (by simp [hok])]
      cases hch : checkFilesForIssues env iter files with
      | error e =>
        dsimp only
        simp [LoopOut.runs]
      | ok p =>
        rcases p with ⟨total, fwi⟩
        dsimp only
        by_cases htz : total = 0
        · rw [if_pos htz]
          simp [LoopOut.runs]
        · rw [if_neg htz]
          cases hfx : fixFilesGo env iter fwi tallies with
          | error e =>
            dsimp only
            simp [LoopOut.runs]
          | ok t1 =>
            dsimp only
            cases hrec : cleanupLoop env files n (iter + 1) t1 (some (env.runAnalysis iter)) with
            | finished b i t l r =>
              have hle := ih (iter + 1) t1 (some (env.runAnalysis iter))
              rw [hrec] at hle
              simp only [LoopOut.runs] at hle ⊢
              omega
            | analysisFailed i a t r =>
              have hle := ih (iter + 1) t1 (some (env.runAnalysis iter))
              rw [hrec] at hle
              simp only [LoopOut.runs] at hle ⊢
              omega
            | raised e r =>
              have hle := ih (iter + 1) t1 (some (env.runAnalysis iter))
              rw [hrec] at hle
              simp only [LoopOut.runs] at hle ⊢
              omega
    · rw [if_pos hok]
      simp [LoopOut.runs]

theorem cleanupLoop_broke_total (env : CleanupEnv) (files : List String) :
    ∀ (fuel iter : Nat) (tallies : List FileCleanupResult) (last : Option AnalysisResult)
      (i : Nat) (t : List FileCleanupResult) (l : Option AnalysisResult) (r : Nat),
      cleanupLoop env files fuel iter tallies last = .finished true i t l r →
      totalFixable env i files = 0 := by
  intro fuel
  induction fuel with
  | zero =>
    intro iter tallies last i t l r h
    simp [cleanupLoop] at h
  | succ n ih =>
    intro iter tallies last i t l r h
    simp only [cleanupLoop] at h
    by_cases hok : (env.runAnalysis iter).success = true
    · rw [if_neg (by simp [hok])] at h
      cases hch : checkFilesForIssues env iter files with
      | error e =>
        rw [hch] at h
        dsimp only at h
        simp at h
      | ok p =>
        rcases p with ⟨total, fwi⟩
        rw [hch] at h
        dsimp only at h
        by_cases htz : total = 0
        · rw [if_pos htz] at h
          simp only [LoopOut.finished.injEq] at h
          obtain ⟨_, hi, _, _, _⟩ := h
          subst hi
          have := checkFilesGo_total env iter files 0 [] total fwi hch
          omega
        · rw [if_neg htz] at h
          cases hfx : fixFilesGo env iter fwi tallies with
          | error e =>
            rw [hfx] at h
            dsimp only at h
            simp at h
          | ok t1 =>
            rw [hfx] at h
            dsimp only at h
            cases hrec : cleanupLoop env files n (iter + 1) t1 (some (env.runAnalysis iter)) with
            | finished b i2 t2 l2 r2 =>
              rw [hrec] at h
              simp only [LoopOut.finished.injEq] at h
              obtain ⟨hb, hi, _, _, _⟩ := h
              rw [hb, hi] at hrec
              exact ih (iter + 1) t1 (some (env.runAnalysis iter)) i t2 l2 r2 hrec
            | analysisFailed i2 a2 t2 r2 =>
              rw [hrec] at h
              simp at h
            | raised e2 r2 =>
              rw [hrec] at h
              simp at h
    · rw [if_pos hok] at h
      simp at h

/-- C7: the branch loop runs at most `max_iterations` iterations; an early
break happens only in an iteration whose fixable-finding count summed over
all modified files is exactly zero; and whenever the loop finishes (break or
budget exhausted with findings outstanding) the run returns `success=true`
with the per-file counts accumulated so far. -/
theorem c7_convergence_termination (env : CleanupEnv) (files : List String)
    (fuel iter : Nat) (tallies : List FileCleanupResult) (last : Option AnalysisResult) :
    ((cleanupLoop env files fuel iter tallies last).runs ≤ fuel)
      ∧ (∀ (i : Nat) (t : List FileCleanupResult) (l : Option AnalysisResult) (r : Nat),
          cleanupLoop env files fuel iter tallies last = .finished true i t l r →
          totalFixable env i files = 0)
      ∧ (∀ (fs0 : List String) (tp : TempProjectMetadata) (broke : Bool) (i : Nat)
          (t : List FileCleanupResult) (l : Option AnalysisResult) (r : Nat),
          env.modifiedFilesResult = .ok fs0 →
          validateAndFilterFiles env fs0 ≠ [] →
          env.createProject = .ok tp →
          cleanupLoop env (validateAndFilterFiles env fs0) env.maxIterations 0
            ((validateAndFilterFiles env fs0).map (fun f =>
              { filePath := f, issuesFixed := 0, success := true, errorMessage := none }))
            none = .finished broke i t l r →
          (cleanup_branch env).1.success = true
            ∧ (cleanup_branch env).1.totalIssuesFixed = sumIssuesFixed t) := by
  refine ⟨cleanupLoop_runs_le env files fuel iter tallies last, ?_, ?_⟩
  · intro i t l r h
    exact cleanupLoop_broke_total env files fuel iter tallies last i t l r h
  · intro fs0 tp broke i t l r henv hne hcp hloop
    unfold cleanup_branch
    rw [henv]
    dsimp only
    rw [if_neg hne, hcp]
    dsimp only
    rw [hloop]
    exact ⟨rfl, rfl⟩

/-- C7 witness: the converging environment breaks with a zero fixable sum,
and the budget-exhausting environment still returns success with one fix
counted. -/
theorem c7_witness :
    totalFixable sampleEnvA 0 ["a.py"] = 0
      ∧ ((cleanup_branch sampleEnvB).1.success = true
          ∧ (cleanup_branch sampleEnvB).1.totalIssuesFixed
              = sumIssuesFixed [{ filePath := "a.py", issuesFixed := 1, success := true
                                  errorMessage := none }]) :=
  ⟨(c7_convergence_termination sampleEnvA ["a.py"] 2 0
      [{ filePath := "a.py", issuesFixed := 0, success := true, errorMessage := none }]
      none).2.1 0
      [{ filePath := "a.py", issuesFixed := 0, success := true, errorMessage := none }]
      (some { success := true, errorMessage := none }) 1 (by decide),
   (c7_convergence_termination sampleEnvB ["a.py"] 1 0 [] none).2.2 ["a.py"]
      { projectKey := "tmp_k", projectName := "tmp" } false 1
      [{ filePath := "a.py", issuesFixed := 1, success := true, errorMessage := none }]
      (some { success := true, errorMessage := none }) 1 rfl (by decide) rfl (by decide)⟩
